import Mathlib

/-!
Verification of the gerber-types code-generation library (RS-274X / Gerber
wire-format serializer).

The crate root (src/lib.rs) declares the modules types, attributes, codegen,
coordinates and errors and contains the test suite; the module bodies are not
part of the sources available here. The renderers below are therefore
modelled from the specification document (sections 4.1 to 4.6), with the
in-repository tests serving as the authoritative anchor for every concrete
output they pin down.

Numbers: the crate renders signed integers (i64) and decimal magnitudes
(f64 carrying exact decimal values in every test). Integers are embedded as
Int. A decimal magnitude is embedded as a mantissa/exponent pair denoting
m / 10 ^ e, plus explicit non-finite values (NaN, infinity) so that the
ConversionError path of the formatter is representable.
-/

namespace Gerber

/-- Modelled from the spec (section 7): the error taxonomy. ConversionError
is raised by the numeric formatter on non-finite values; WriteError wraps a
failure of the caller-supplied output sink. -/
inductive GerberError where
  | ConversionError (msg : String)
  | WriteError (msg : String)
deriving DecidableEq

/-- Result type threaded through every render call. -/
abbrev GerberResult (α : Type) : Type := Except GerberError α

/-- Little-endian list of base-10 digits, with explicit fuel so that the
definition is structural and kernel-reducible. -/
def digitsAux : Nat → Nat → List Nat
  | 0, _ => []
  | fuel + 1, n => if n = 0 then [] else n % 10 :: digitsAux fuel (n / 10)

/-- Little-endian base-10 digits of n (empty for 0); fuel n always suffices. -/
def digitsLE (n : Nat) : List Nat := digitsAux n n

/-- The character for one decimal digit. -/
def digitChar (d : Nat) : Char := Char.ofNat (48 + d)

/-- Modelled from the spec (section 4.1): decimal text of a natural number,
no leading zeros, most-significant digit first. -/
def natChars (n : Nat) : List Char :=
  if n = 0 then ['0'] else ((digitsLE n).reverse).map digitChar

/-- Modelled from the spec (section 4.1): the integer formatter, a leading
minus for negative values, no plus sign, no leading zeros. Stand-in for the
missing codegen of i64 values. -/
def intStr (i : Int) : String :=
  (if i < 0 then "-" else "") ++ String.mk (natChars i.natAbs)

/-- Modelled from the spec (section 4.1): strip trailing decimal zeros.
Given mantissa m and exponent e (value m / 10 ^ e), divide out factors of
ten while the fractional part ends in zero. -/
def stripZerosAux : Int → Nat → Int × Nat
  | m, 0 => (m, 0)
  | m, e + 1 => if m % 10 = 0 then stripZerosAux (m / 10) e else (m, e + 1)

/-- Modelled from the spec (section 4.1): the decimal-magnitude formatter.
Produces the shortest exact decimal text of m / 10 ^ e: trailing zeros past
the point (and a redundant trailing point) are dropped, and at least one
digit is kept before the point. -/
def decimalStr (m : Int) (e : Nat) : String :=
  match stripZerosAux m e with
  | (mr, 0) => intStr mr
  | (mr, er + 1) =>
    let ds : List Char := natChars mr.natAbs
    let padded : List Char := List.replicate (er + 2 - ds.length) '0' ++ ds
    let ip : List Char := padded.take (padded.length - (er + 1))
    let fp : List Char := padded.drop (padded.length - (er + 1))
    (if mr < 0 then "-" else "") ++ String.mk ip ++ "." ++ String.mk fp

/-- A decimal magnitude as the crate's f64 fields carry it: either an exact
decimal value m / 10 ^ e, or a non-finite value. -/
inductive GerberFloat where
  | finite (m : Int) (e : Nat)
  | nan
  | infinite
deriving DecidableEq

/-- Modelled from the spec (section 4.1): the single decimal formatter used
by every encoder that emits a decimal number; fails with a ConversionError
on a non-finite value. -/
def formatDecimal : GerberFloat → GerberResult String
  | .finite m e => .ok (decimalStr m e)
  | .nan => .error (.ConversionError "value is not finite")
  | .infinite => .error (.ConversionError "value is not finite")

/-- An absolute X/Y position; each axis is optional (src/lib.rs tests, spec
section 3). -/
structure Coordinates where
  x : Option Int
  y : Option Int
deriving DecidableEq

/-- Both axes present (constructor used by the tests). -/
def Coordinates.new (x y : Int) : Coordinates := ⟨some x, some y⟩

/-- Only the x axis present. -/
def Coordinates.at_x (x : Int) : Coordinates := ⟨some x, none⟩

/-- Only the y axis present. -/
def Coordinates.at_y (y : Int) : Coordinates := ⟨none, some y⟩

/-- A relative I/J center offset; same shape as Coordinates. -/
structure CoordinateOffset where
  x : Option Int
  y : Option Int
deriving DecidableEq

/-- Both offset axes present. -/
def CoordinateOffset.new (x y : Int) : CoordinateOffset := ⟨some x, some y⟩

/-- Only the i axis present. -/
def CoordinateOffset.at_x (x : Int) : CoordinateOffset := ⟨some x, none⟩

/-- Only the j axis present. -/
def CoordinateOffset.at_y (y : Int) : CoordinateOffset := ⟨none, some y⟩

/-- Modelled from the spec (section 4.2): coordinate text, X then Y, a
present axis rendered as letter plus number, an absent axis contributing
nothing, both absent yielding the empty string. -/
def Coordinates.str (c : Coordinates) : String :=
  (match c.x with
   | some v => "X" ++ intStr v
   | none => "") ++
  (match c.y with
   | some v => "Y" ++ intStr v
   | none => "")

/-- Modelled from the spec (section 4.2): rendering Coordinates never
fails; the missing coordinates module's GerberCode impl. -/
def Coordinates.to_code (c : Coordinates) : GerberResult String := .ok c.str

/-- Modelled from the spec (section 4.2): identical rule with letters I/J. -/
def CoordinateOffset.str (c : CoordinateOffset) : String :=
  (match c.x with
   | some v => "I" ++ intStr v
   | none => "") ++
  (match c.y with
   | some v => "J" ++ intStr v
   | none => "")

/-- Modelled from the spec (section 4.2): offset rendering never fails. -/
def CoordinateOffset.to_code (c : CoordinateOffset) : GerberResult String :=
  .ok c.str

/-- A draw primitive (spec section 3): Interpolate carries an optional
circular-interpolation offset. -/
inductive Operation where
  | Interpolate (coords : Coordinates) (offset : Option CoordinateOffset)
  | Move (coords : Coordinates)
  | Flash (coords : Coordinates)
deriving DecidableEq

/-- Modelled from the spec (sections 4.5, 5.4.x): coordinate text, then the
offset text when present, then the fixed op-code suffix D01/D02/D03 and the
bare star terminator. -/
def Operation.to_code : Operation → GerberResult String
  | .Interpolate c o => do
    let cs ← c.to_code
    let os ← match o with
             | some off => off.to_code
             | none => pure ""
    pure (cs ++ os ++ "D01*")
  | .Move c => do
    let cs ← c.to_code
    pure (cs ++ "D02*")
  | .Flash c => do
    let cs ← c.to_code
    pure (cs ++ "D03*")

/-- Linear or circular draw mode (spec section 4.5). -/
inductive InterpolationMode where
  | Linear
  | ClockwiseCircular
  | CounterclockwiseCircular
deriving DecidableEq

/-- Single- or multi-quadrant circular interpolation (spec section 4.5). -/
inductive QuadrantMode where
  | Single
  | Multi
deriving DecidableEq

/-- Preparatory/mode commands (spec section 3). -/
inductive GCode where
  | Comment (text : String)
  | InterpolationMode (mode : InterpolationMode)
  | RegionMode (enabled : Bool)
  | QuadrantMode (mode : QuadrantMode)
deriving DecidableEq

/-- Modelled from the spec (section 4.5): the closed variant-to-token map
for G codes. -/
def GCode.to_code : GCode → GerberResult String
  | .Comment s => .ok ("G04 " ++ s ++ " *")
  | .InterpolationMode m =>
    .ok (match m with
         | .Linear => "G01*"
         | .ClockwiseCircular => "G02*"
         | .CounterclockwiseCircular => "G03*")
  | .RegionMode b => .ok (if b then "G36*" else "G37*")
  | .QuadrantMode q =>
    .ok (match q with
         | .Single => "G74*"
         | .Multi => "G75*")

/-- Program-control command (spec section 3). -/
inductive MCode where
  | EndOfFile
deriving DecidableEq

/-- Modelled from the spec (section 4.5): EndOfFile renders as M02 star. -/
def MCode.to_code : MCode → GerberResult String
  | .EndOfFile => .ok "M02*"

/-- Aperture selection or wrapped draw operation (spec section 3). -/
inductive DCode where
  | SelectAperture (code : Int)
  | Operation (op : Operation)
deriving DecidableEq

/-- Modelled from the spec (section 4.5): SelectAperture renders as D plus
the code plus a star; a wrapped Operation renders as itself. -/
def DCode.to_code : DCode → GerberResult String
  | .SelectAperture code => .ok ("D" ++ intStr code ++ "*")
  | .Operation op => op.to_code

/-- Union of G/M/D codes (spec section 3). -/
inductive FunctionCode where
  | GCode (g : GCode)
  | MCode (m : MCode)
  | DCode (d : DCode)
deriving DecidableEq

/-- Modelled from the spec (section 4.5): function codes render by variant
dispatch. -/
def FunctionCode.to_code : FunctionCode → GerberResult String
  | .GCode g => g.to_code
  | .MCode m => m.to_code
  | .DCode d => d.to_code

/-- Circle aperture payload (src/lib.rs tests). -/
structure Circle where
  diameter : GerberFloat
  hole_diameter : Option GerberFloat
deriving DecidableEq

/-- Rectangle/obround aperture payload (src/lib.rs tests). -/
structure Rectangular where
  x : GerberFloat
  y : GerberFloat
  hole_diameter : Option GerberFloat
deriving DecidableEq

/-- Polygon aperture payload (src/lib.rs tests). -/
structure Polygon where
  diameter : GerberFloat
  vertices : Nat
  rotation : Option GerberFloat
  hole_diameter : Option GerberFloat
deriving DecidableEq

/-- Aperture shape union (spec section 3). -/
inductive Aperture where
  | Circle (c : Circle)
  | Rectangle (r : Rectangular)
  | Obround (r : Rectangular)
  | Polygon (p : Polygon)
deriving DecidableEq

/-- Modelled from the spec (section 4.4) and the aperture tests in
src/lib.rs: shape letter, one comma, then the numeric fields separated by
the letter X (as every test shows, e.g. 12R,1.5X2.25X3.8); an optional
absent trailing field is omitted, except that a Polygon whose rotation is
absent renders the literal 0 in the rotation slot whenever a hole diameter
follows it. -/
def Aperture.to_code : Aperture → GerberResult String
  | .Circle c => do
    let d ← formatDecimal c.diameter
    let h ← match c.hole_diameter with
            | some hd => do
              let hs ← formatDecimal hd
              pure ("X" ++ hs)
            | none => pure ""
    pure ("C," ++ d ++ h)
  | .Rectangle r => do
    let xs ← formatDecimal r.x
    let ys ← formatDecimal r.y
    let h ← match r.hole_diameter with
            | some hd => do
              let hs ← formatDecimal hd
              pure ("X" ++ hs)
            | none => pure ""
    pure ("R," ++ xs ++ "X" ++ ys ++ h)
  | .Obround r => do
    let xs ← formatDecimal r.x
    let ys ← formatDecimal r.y
    let h ← match r.hole_diameter with
            | some hd => do
              let hs ← formatDecimal hd
              pure ("X" ++ hs)
            | none => pure ""
    pure ("O," ++ xs ++ "X" ++ ys ++ h)
  | .Polygon p => do
    let d ← formatDecimal p.diameter
    let tail ← match p.rotation, p.hole_diameter with
               | some r, some hd => do
                 let rs ← formatDecimal r
                 let hs ← formatDecimal hd
                 pure ("X" ++ rs ++ "X" ++ hs)
               | some r, none => do
                 let rs ← formatDecimal r
                 pure ("X" ++ rs)
               | none, some hd => do
                 let hs ← formatDecimal hd
                 pure ("X0X" ++ hs)
               | none, none => pure ""
    pure ("P," ++ d ++ "X" ++ String.mk (natChars p.vertices) ++ tail)

/-- An aperture declaration: code plus shape (src/lib.rs tests). -/
structure ApertureDefinition where
  code : Int
  aperture : Aperture
deriving DecidableEq

/-- Modelled from the spec (section 4.4): the aperture code followed by the
shape body (test outputs such as 10C,4X2). -/
def ApertureDefinition.to_code (ad : ApertureDefinition) : GerberResult String := do
  let body ← ad.aperture.to_code
  pure (intStr ad.code ++ body)

/-- Unit of measure (src/lib.rs tests). -/
inductive Unit where
  | Millimeters
  | Inches
deriving DecidableEq

/-- Layer polarity (src/lib.rs tests). -/
inductive Polarity where
  | Dark
  | Clear
deriving DecidableEq

/-- Step-and-repeat block command (src/lib.rs tests, spec section 4.5). -/
inductive StepAndRepeat where
  | Open (repeat_x repeat_y : Int) (distance_x distance_y : GerberFloat)
  | Close
deriving DecidableEq

/-- Part file-attribute value; unknown kinds fall back to Other carrying
the caller-supplied literal (spec section 4.3). -/
inductive Part where
  | Other (name : String)
deriving DecidableEq

/-- A standard file attribute (spec sections 3, 4.3). -/
inductive FileAttribute where
  | Part (part : Part)
deriving DecidableEq

/-- Modelled from the spec (section 4.3): dot, key name, then each value
prefixed by a comma. -/
def FileAttribute.attr_str : FileAttribute → String
  | .Part p =>
    ".Part" ++ (match p with
                | .Other name => ",Other," ++ name)

/-- Document-level extended codes (spec section 3). -/
inductive ExtendedCode where
  | CoordinateFormat (integer decimal : Nat)
  | Unit (u : Unit)
  | LoadPolarity (p : Polarity)
  | StepAndRepeat (sr : StepAndRepeat)
  | DeleteAttribute (name : String)
  | FileAttribute (attr : FileAttribute)
  | ApertureDefinition (ad : ApertureDefinition)
deriving DecidableEq

/-- Modelled from the spec (sections 4.3, 4.5) and the extended-code tests
in src/lib.rs: the body of an extended code, before the percent wrapping.
CoordinateFormat emits FSLAX, then the integer and decimal digit counts,
then Y and the same two digit counts again (the test pins 2,5 to
FSLAX25Y25). -/
def ExtendedCode.body : ExtendedCode → GerberResult String
  | .CoordinateFormat i d =>
    .ok ("FSLAX" ++ String.mk (natChars i) ++ String.mk (natChars d) ++
         "Y" ++ String.mk (natChars i) ++ String.mk (natChars d))
  | .Unit u =>
    .ok ("MO" ++ match u with
                 | .Millimeters => "MM"
                 | .Inches => "IN")
  | .LoadPolarity p =>
    .ok ("LP" ++ match p with
                 | .Dark => "D"
                 | .Clear => "C")
  | .StepAndRepeat sr =>
    match sr with
    | .Open rx ry dx dy => do
      let dxs ← formatDecimal dx
      let dys ← formatDecimal dy
      pure ("SRX" ++ intStr rx ++ "Y" ++ intStr ry ++
            "I" ++ dxs ++ "J" ++ dys)
    | .Close => .ok "SR"
  | .DeleteAttribute name => .ok ("TD" ++ name)
  | .FileAttribute attr => .ok ("TF" ++ attr.attr_str)
  | .ApertureDefinition ad => do
    let s ← ad.to_code
    pure ("ADD" ++ s)

/-- Modelled from the spec (section 4.5): every extended code is wrapped as
percent, body, star, percent. -/
def ExtendedCode.to_code (ec : ExtendedCode) : GerberResult String :=
  ec.body.map (fun b => "%" ++ b ++ "*%")

/-- Top-level command union (spec section 3). -/
inductive Command where
  | FunctionCode (fc : FunctionCode)
  | ExtendedCode (ec : ExtendedCode)
deriving DecidableEq

/-- Modelled from the spec (section 4.5): top-level dispatch. -/
def Command.to_code : Command → GerberResult String
  | .FunctionCode fc => fc.to_code
  | .ExtendedCode ec => ec.to_code

/-- Modelled from the spec (section 4.6): render each element of a sequence
in order; the first failure aborts the whole render with that error. -/
def renderEach {α : Type} (f : α → GerberResult String) :
    List α → GerberResult (List String)
  | [] => .ok []
  | x :: xs => do
    let s ← f x
    let rest ← renderEach f xs
    pure (s :: rest)

/-- Modelled from the spec (section 4.6): the GerberCode impl for Vec, the
individual renderings joined by a single line break, no trailing
separator. -/
def renderList {α : Type} (f : α → GerberResult String) (l : List α) :
    GerberResult String := do
  let strs ← renderEach f l
  pure (String.intercalate "\n" strs)

/-- Value denoted by a little-endian digit list. -/
def ofDigitsLE : List Nat → Nat
  | [] => 0
  | d :: ds => d + 10 * ofDigitsLE ds

/-- Value read back from a big-endian digit-character list (the inverse of
the formatter, used to state exactness of the decimal output). -/
def charsToNat : List Char → Nat
  | [] => 0
  | c :: l => (c.toNat - 48) * 10 ^ l.length + charsToNat l

theorem digitsAux_val : ∀ fuel n : Nat, n ≤ fuel → ofDigitsLE (digitsAux fuel n) = n
  | 0, n, h => by
    simp only [digitsAux, ofDigitsLE]
    omega
  | fuel + 1, n, h => by
    by_cases hn : n = 0
    · simp [digitsAux, hn, ofDigitsLE]
    · have hd : n / 10 ≤ fuel := by
        have := Nat.div_lt_self (Nat.pos_of_ne_zero hn) (by omega : 1 < 10)
        omega
      have ih := digitsAux_val fuel (n / 10) hd
      simp only [digitsAux, hn, if_false, ofDigitsLE, ih]
      omega

theorem digitsAux_lt : ∀ fuel n d : Nat, d ∈ digitsAux fuel n → d < 10
  | 0, n, d, h => by simp [digitsAux] at h
  | fuel + 1, n, d, h => by
    by_cases hn : n = 0
    · simp [digitsAux, hn] at h
    · simp only [digitsAux, hn, if_false, List.mem_cons] at h
      rcases h with h | h
      · omega
      · exact digitsAux_lt fuel (n / 10) d h

theorem digitsAux_head (fuel n : Nat) (hn : n ≠ 0) (hf : fuel ≠ 0) :
    (digitsAux fuel n).head? = some (n % 10) := by
  cases fuel with
  | zero => exact absurd rfl hf
  | succ f => simp [digitsAux, hn]

theorem digit_sub : ∀ d : Nat, d < 10 → (digitChar d).toNat - 48 = d := by decide

theorem digit_isDigit : ∀ d : Nat, d < 10 → (digitChar d).isDigit = true := by decide

theorem digit_ne_zero : ∀ d : Nat, d < 10 → d ≠ 0 → digitChar d ≠ '0' := by decide

theorem charsToNat_append (a b : List Char) :
    charsToNat (a ++ b) = charsToNat a * 10 ^ b.length + charsToNat b := by
  induction a with
  | nil => simp [charsToNat]
  | cons c l ih =>
    simp only [List.cons_append, charsToNat, List.append_eq, List.length_append, ih]
    ring

theorem charsToNat_replicate_zero (k : Nat) :
    charsToNat (List.replicate k '0') = 0 := by
  induction k with
  | zero => rfl
  | succ j ih => simpa [List.replicate, charsToNat] using ih

theorem charsToNat_revMap (l : List Nat) (h : ∀ d ∈ l, d < 10) :
    charsToNat ((l.reverse).map digitChar) = ofDigitsLE l := by
  induction l with
  | nil => rfl
  | cons d ds ih =>
    have hd : d < 10 := h d (List.mem_cons_self d ds)
    have hds : ∀ x ∈ ds, x < 10 := fun x hx => h x (List.mem_cons_of_mem d hx)
    simp only [List.reverse_cons, List.map_append, charsToNat_append, ih hds,
      List.map_cons, List.map_nil, charsToNat, ofDigitsLE, List.length_nil,
      List.length_cons, pow_zero, pow_one, digit_sub d hd]
    ring

theorem charsToNat_natChars (n : Nat) : charsToNat (natChars n) = n := by
  by_cases hn : n = 0
  · subst hn; rfl
  · simp only [natChars, digitsLE, hn, if_false]
    rw [charsToNat_revMap (digitsAux n n) (fun d hd => digitsAux_lt n n d hd)]
    exact digitsAux_val n n le_rfl

theorem natChars_isDigit (n : Nat) : ∀ c ∈ natChars n, c.isDigit = true := by
  intro c hc
  by_cases hn : n = 0
  · subst hn
    simp only [natChars, if_true, List.mem_singleton] at hc
    subst hc
    decide
  · simp only [natChars, hn, if_false, List.mem_map, List.mem_reverse] at hc
    obtain ⟨d, hd, rfl⟩ := hc
    exact digit_isDigit d (digitsAux_lt n n d hd)

theorem natChars_ne_nil (n : Nat) : natChars n ≠ [] := by
  by_cases hn : n = 0
  · subst hn; simp [natChars]
  · have hh := digitsAux_head n n hn hn
    simp only [natChars, digitsLE, hn, if_false, ne_eq, List.map_eq_nil_iff,
      List.reverse_eq_nil_iff]
    intro hcon
    rw [hcon] at hh
    simp at hh

theorem natChars_getLast (n : Nat) (hn : n ≠ 0) :
    (natChars n).getLast? = some (digitChar (n % 10)) := by
  simp only [natChars, digitsLE, hn, if_false]
  rw [List.map_reverse, List.getLast?_reverse, List.head?_map,
    digitsAux_head n n hn hn]
  rfl

theorem stripZerosAux_spec : ∀ (e : Nat) (m : Int),
    (stripZerosAux m e).2 ≤ e ∧
      m = (stripZerosAux m e).1 * 10 ^ (e - (stripZerosAux m e).2)
  | 0, m => by simp [stripZerosAux]
  | e + 1, m => by
    by_cases hm : m % 10 = 0
    · obtain ⟨h1, h2⟩ := stripZerosAux_spec e (m / 10)
      simp only [stripZerosAux, hm, if_true]
      refine ⟨by omega, ?_⟩
      have hstep : e + 1 - (stripZerosAux (m / 10) e).2 =
          (e - (stripZerosAux (m / 10) e).2) + 1 := by omega
      rw [hstep, pow_succ]
      have hmdiv : m = 10 * (m / 10) := by omega
      calc m = 10 * (m / 10) := hmdiv
        _ = 10 * ((stripZerosAux (m / 10) e).1 *
              10 ^ (e - (stripZerosAux (m / 10) e).2)) := by rw [← h2]
        _ = (stripZerosAux (m / 10) e).1 *
              (10 ^ (e - (stripZerosAux (m / 10) e).2) * 10) := by ring
    · simp [stripZerosAux, hm]

theorem stripZerosAux_mod : ∀ (e : Nat) (m : Int),
    (stripZerosAux m e).2 ≠ 0 → (stripZerosAux m e).1 % 10 ≠ 0
  | 0, m => by simp [stripZerosAux]
  | e + 1, m => by
    by_cases hm : m % 10 = 0
    · simpa only [stripZerosAux, hm, if_true] using stripZerosAux_mod e (m / 10)
    · simp [stripZerosAux, hm]

theorem intStr_chars (i : Int) :
    ∀ c ∈ (intStr i).data, c = '-' ∨ c.isDigit = true := by
  intro c hc
  unfold intStr at hc
  rw [String.data_append] at hc
  rcases List.mem_append.mp hc with h | h
  · by_cases hi : i < 0
    · simp only [hi, if_true] at h
      left
      simpa using h
    · simp [hi] at h
  · exact Or.inr (natChars_isDigit i.natAbs c h)

theorem gr_bind_ok {α β : Type} (a : α) (f : α → GerberResult β) :
    (Except.ok a : GerberResult α) >>= f = f a := rfl

theorem gr_bind_error {α β : Type} (e : GerberError) (f : α → GerberResult β) :
    (Except.error e : GerberResult α) >>= f = (Except.error e : GerberResult β) := rfl

theorem gr_pure {α : Type} (a : α) : (pure a : GerberResult α) = Except.ok a := rfl

theorem renderEach_ok {α : Type} (f : α → GerberResult String) (g : α → String) :
    ∀ l : List α, (∀ x ∈ l, f x = .ok (g x)) → renderEach f l = .ok (l.map g)
  | [], _ => rfl
  | x :: xs, h => by
    have hx : f x = .ok (g x) := h x (List.mem_cons_self x xs)
    have hxs := renderEach_ok f g xs (fun y hy => h y (List.mem_cons_of_mem x hy))
    simp only [renderEach, hx, hxs, gr_bind_ok, gr_pure, List.map_cons]

theorem renderEach_isOk {α : Type} (f : α → GerberResult String) :
    ∀ l : List α, (∃ ss, renderEach f l = .ok ss) ↔ ∀ x ∈ l, ∃ s, f x = .ok s
  | [] => by simp [renderEach]
  | x :: xs => by
    constructor
    · rintro ⟨ss, hss⟩ y hy
      cases hfx : f x with
      | error e => rw [renderEach, hfx, gr_bind_error] at hss; exact absurd hss (by simp)
      | ok s =>
        rcases List.mem_cons.mp hy with rfl | hy'
        · exact ⟨s, hfx⟩
        · rw [renderEach, hfx, gr_bind_ok] at hss
          cases hrest : renderEach f xs with
          | error e => rw [hrest, gr_bind_error] at hss; exact absurd hss (by simp)
          | ok ss' => exact ((renderEach_isOk f xs).mp ⟨ss', hrest⟩) y hy'
    · intro h
      obtain ⟨s, hs⟩ := h x (List.mem_cons_self x xs)
      obtain ⟨ss, hss⟩ := (renderEach_isOk f xs).mpr
        (fun y hy => h y (List.mem_cons_of_mem x hy))
      exact ⟨s :: ss, by simp only [renderEach, hs, hss, gr_bind_ok, gr_pure]⟩

theorem renderEach_error {α : Type} (f : α → GerberResult String) (e : GerberError) :
    ∀ (l1 l2 : List α) (c : α), (∀ x ∈ l1, ∃ s, f x = .ok s) → f c = .error e →
      renderEach f (l1 ++ c :: l2) = .error e
  | [], l2, c, _, hc => by
    simp only [List.nil_append, renderEach, hc, gr_bind_error]
  | x :: xs, l2, c, h, hc => by
    obtain ⟨s, hs⟩ := h x (List.mem_cons_self x xs)
    have ih := renderEach_error f e xs l2 c
      (fun y hy => h y (List.mem_cons_of_mem x hy)) hc
    simp only [List.cons_append, List.append_eq, renderEach, hs, ih, gr_bind_ok,
      gr_bind_error]

theorem isDigit_not_letter (c : Char) (h : c.isDigit = true) :
    c ≠ 'I' ∧ c ≠ 'J' := by
  constructor
  · intro hc; rw [hc] at h; exact absurd h (by decide)
  · intro hc; rw [hc] at h; exact absurd h (by decide)

theorem coordStr_chars (c : Coordinates) :
    ∀ ch ∈ (Coordinates.str c).data,
      ch = 'X' ∨ ch = 'Y' ∨ ch = '-' ∨ ch.isDigit = true := by
  intro ch hch
  unfold Coordinates.str at hch
  rw [String.data_append] at hch
  rcases List.mem_append.mp hch with h | h
  · cases hx : c.x with
    | none => rw [hx] at h; simp at h
    | some v =>
      rw [hx] at h
      rw [String.data_append] at h
      rcases List.mem_append.mp h with h' | h'
      · left; simpa using h'
      · rcases intStr_chars v ch h' with h'' | h''
        · exact Or.inr (Or.inr (Or.inl h''))
        · exact Or.inr (Or.inr (Or.inr h''))
  · cases hy : c.y with
    | none => rw [hy] at h; simp at h
    | some v =>
      rw [hy] at h
      rw [String.data_append] at h
      rcases List.mem_append.mp h with h' | h'
      · right; left; simpa using h'
      · rcases intStr_chars v ch h' with h'' | h''
        · exact Or.inr (Or.inr (Or.inl h''))
        · exact Or.inr (Or.inr (Or.inr h''))

theorem append_star (A B : String) : A ++ (B ++ "*") = (A ++ B) ++ "*" :=
  (String.append_assoc A B "*").symm

/-- Claim C1, counterexample: CoordinateFormat(2,5) does not render with
each digit-count doubled as %FSLAX22Y55*%; the test in src/lib.rs pins the
output to %FSLAX25Y25*%, which differs from the doubled form. -/
theorem coordinate_format_not_doubled :
    (ExtendedCode.CoordinateFormat 2 5).to_code = .ok "%FSLAX25Y25*%" ∧
      "%FSLAX25Y25*%" ≠ "%FSLAX22Y55*%" := by
  exact ⟨rfl, by decide⟩

/-- Claim C1 (amended): for every CoordinateFormat extended code with
integer-digit count x and decimal-digit count y, to_code returns %FSLAX,
then the x digit followed by the y digit, then Y, then the x digit followed
by the y digit again, then the closing star-percent (so CoordinateFormat
2 5 renders as %FSLAX25Y25*%). -/
theorem coordinate_format_digit_pairs (i d : Nat) :
    (ExtendedCode.CoordinateFormat i d).to_code =
      .ok ("%FSLAX" ++ String.mk (natChars i) ++ String.mk (natChars d) ++ "Y" ++
           String.mk (natChars i) ++ String.mk (natChars d) ++ "*%") := by
  simp only [ExtendedCode.to_code, ExtendedCode.body, Except.map,
    String.append_assoc]
  rfl

/-- Claim C2: every ExtendedCode variant renders as a string that begins
with the percent character and ends with star-percent. -/
theorem extended_code_delimiters (ec : ExtendedCode) (s : String)
    (h : ec.to_code = .ok s) : ∃ mid, s = "%" ++ mid ++ "*%" := by
  unfold ExtendedCode.to_code at h
  cases hb : ec.body with
  | ok b =>
    rw [hb] at h
    simp only [Except.map] at h
    exact ⟨b, by injection h with h'; exact h'.symm⟩
  | error e =>
    rw [hb] at h
    simp [Except.map] at h

/-- Witness for C2 at a concrete extended code. -/
theorem extended_code_delimiters_witness :
    ∃ mid, "%MOMM*%" = "%" ++ mid ++ "*%" :=
  extended_code_delimiters (ExtendedCode.Unit .Millimeters) "%MOMM*%" rfl

/-- Claim C5: Coordinates render as X then Y, each present axis as its
letter plus number with no separator, an absent axis contributing nothing,
both absent giving the empty string; CoordinateOffset identically with
letters I and J. -/
theorem coordinates_axis_omission (x y : Int) :
    (Coordinates.mk (some x) (some y)).to_code =
      .ok ("X" ++ intStr x ++ "Y" ++ intStr y) ∧
    (Coordinates.mk (some x) none).to_code = .ok ("X" ++ intStr x) ∧
    (Coordinates.mk none (some y)).to_code = .ok ("Y" ++ intStr y) ∧
    (Coordinates.mk none none).to_code = .ok "" ∧
    (CoordinateOffset.mk (some x) (some y)).to_code =
      .ok ("I" ++ intStr x ++ "J" ++ intStr y) ∧
    (CoordinateOffset.mk (some x) none).to_code = .ok ("I" ++ intStr x) ∧
    (CoordinateOffset.mk none (some y)).to_code = .ok ("J" ++ intStr y) ∧
    (CoordinateOffset.mk none none).to_code = .ok "" ∧
    (Coordinates.mk (some 0) (some (-400))).to_code = .ok "X0Y-400" ∧
    (CoordinateOffset.mk (some 0) (some (-400))).to_code = .ok "I0J-400" := by
  refine ⟨?_, ?_, ?_, rfl, ?_, ?_, ?_, rfl, rfl, rfl⟩ <;>
    simp [Coordinates.to_code, CoordinateOffset.to_code, Coordinates.str,
      CoordinateOffset.str, String.append_assoc, String.append_empty]

/-- Claim C8: each Operation appends the fixed op-code suffix after the
coordinate (and optional offset) text, D01 for Interpolate, D02 for Move,
D03 for Flash, and every function-code line ends with a bare star. -/
theorem operation_opcode_suffix (c : Coordinates) (o : CoordinateOffset) :
    Operation.to_code (.Interpolate c (some o)) =
      .ok (c.str ++ o.str ++ "D01*") ∧
    Operation.to_code (.Interpolate c none) = .ok (c.str ++ "D01*") ∧
    Operation.to_code (.Move c) = .ok (c.str ++ "D02*") ∧
    Operation.to_code (.Flash c) = .ok (c.str ++ "D03*") ∧
    (∀ (op : Operation) (s : String), op.to_code = .ok s → ∃ t, s = t ++ "*") ∧
    (∀ (fc : FunctionCode) (s : String), fc.to_code = .ok s →
      ∃ t, s = t ++ "*") := by
  have hop : ∀ (op : Operation) (s : String), op.to_code = .ok s →
      ∃ t, s = t ++ "*" := by
    intro op s h
    cases op with
    | Interpolate c' o' =>
      cases o' with
      | none =>
        injection h with h'
        exact ⟨(c'.str ++ "") ++ "D01", h'.symm.trans (append_star _ "D01")⟩
      | some off =>
        injection h with h'
        exact ⟨(c'.str ++ off.str) ++ "D01", h'.symm.trans (append_star _ "D01")⟩
    | Move c' =>
      injection h with h'
      exact ⟨c'.str ++ "D02", h'.symm.trans (append_star _ "D02")⟩
    | Flash c' =>
      injection h with h'
      exact ⟨c'.str ++ "D03", h'.symm.trans (append_star _ "D03")⟩
  refine ⟨rfl, ?_, rfl, rfl, hop, ?_⟩
  · simp [Operation.to_code, Coordinates.to_code]
  · intro fc s h
    cases fc with
    | GCode g =>
      cases g with
      | Comment t =>
        injection h with h'
        exact ⟨("G04 " ++ t) ++ " ", h'.symm.trans (append_star _ " ")⟩
      | InterpolationMode m =>
        cases m with
        | Linear => injection h with h'; exact ⟨"G01", h'.symm⟩
        | ClockwiseCircular => injection h with h'; exact ⟨"G02", h'.symm⟩
        | CounterclockwiseCircular => injection h with h'; exact ⟨"G03", h'.symm⟩
      | RegionMode b =>
        cases b with
        | true => injection h with h'; exact ⟨"G36", h'.symm⟩
        | false => injection h with h'; exact ⟨"G37", h'.symm⟩
      | QuadrantMode q =>
        cases q with
        | Single => injection h with h'; exact ⟨"G74", h'.symm⟩
        | Multi => injection h with h'; exact ⟨"G75", h'.symm⟩
    | MCode m =>
      cases m
      injection h with h'
      exact ⟨"M02", h'.symm⟩
    | DCode d =>
      cases d with
      | SelectAperture code =>
        injection h with h'
        exact ⟨"D" ++ intStr code, h'.symm⟩
      | Operation op => exact hop op s h

/-- Witness for C8 at a concrete operation. -/
theorem operation_opcode_suffix_witness :
    Operation.to_code (.Move (Coordinates.new 23 42)) = .ok "X23Y42D02*" :=
  (operation_opcode_suffix (Coordinates.new 23 42)
    (CoordinateOffset.new 5 10)).2.2.1

/-- Claim C10: an Interpolate with no offset renders as exactly the
coordinate text followed by D01 and a star, with no I or J characters in
the output; with an offset present, the I/J text sits between the
coordinate text and the D01 suffix (x=1 with j-offset 2 gives X1J2D01*). -/
theorem interpolate_offset_optional (c : Coordinates) :
    Operation.to_code (.Interpolate c none) = .ok (c.str ++ "D01*") ∧
    (∀ ch ∈ (c.str ++ "D01*").data, ch ≠ 'I' ∧ ch ≠ 'J') ∧
    (∀ o : CoordinateOffset,
      Operation.to_code (.Interpolate c (some o)) =
        .ok (c.str ++ o.str ++ "D01*")) ∧
    Operation.to_code (.Interpolate (Coordinates.at_x 1)
      (some (CoordinateOffset.at_y 2))) = .ok "X1J2D01*" := by
  refine ⟨?_, ?_, fun o => rfl, rfl⟩
  · simp [Operation.to_code, Coordinates.to_code]
  · intro ch hch
    rw [String.data_append] at hch
    rcases List.mem_append.mp hch with h | h
    · rcases coordStr_chars c ch h with h' | h' | h' | h'
      · subst h'; exact ⟨by decide, by decide⟩
      · subst h'; exact ⟨by decide, by decide⟩
      · subst h'; exact ⟨by decide, by decide⟩
      · exact isDigit_not_letter ch h'
    · have hd : ("D01*" : String).data = ['D', '0', '1', '*'] := rfl
      rw [hd] at h
      simp only [List.mem_cons, List.not_mem_nil, or_false] at h
      rcases h with rfl | rfl | rfl | rfl <;> exact ⟨by decide, by decide⟩

/-- Witness for C10 at a concrete interpolate operation. -/
theorem interpolate_offset_optional_witness :
    Operation.to_code (.Interpolate (Coordinates.at_y (-200)) none) =
      .ok "Y-200D01*" :=
  (interpolate_offset_optional (Coordinates.at_y (-200))).1

/-- Claim C3, counterexample: the shape-specific numeric fields are not
joined by commas; the rectangle test in src/lib.rs pins the output to
12R,1.5X2.25X3.8, which differs from the comma-joined form
12R,1.5,2.25,3.8. -/
theorem aperture_fields_not_comma_joined :
    (ApertureDefinition.mk 12 (.Rectangle ⟨.finite 15 1, .finite 225 2,
      some (.finite 38 1)⟩)).to_code = .ok "12R,1.5X2.25X3.8" ∧
      "12R,1.5X2.25X3.8" ≠ "12R,1.5,2.25,3.8" :=
  ⟨rfl, by decide⟩

/-- Claim C3 (amended): every ApertureDefinition renders as the aperture
code, then the shape letter (C, R, O or P), then one comma, then the
shape-specific numeric fields separated by the letter X, an optional
absent trailing field being omitted entirely (and an absent Polygon
rotation defaulting to 0 when a hole diameter follows). -/
theorem aperture_definition_rendering (code : Int) (v : Nat)
    (dia ax ay rot hole : GerberFloat) (ds xs ys rs hs : String)
    (hdia : formatDecimal dia = .ok ds) (hax : formatDecimal ax = .ok xs)
    (hay : formatDecimal ay = .ok ys) (hrot : formatDecimal rot = .ok rs)
    (hhole : formatDecimal hole = .ok hs) :
    (ApertureDefinition.mk code (.Circle ⟨dia, some hole⟩)).to_code =
      .ok (intStr code ++ "C," ++ ds ++ "X" ++ hs) ∧
    (ApertureDefinition.mk code (.Circle ⟨dia, none⟩)).to_code =
      .ok (intStr code ++ "C," ++ ds) ∧
    (ApertureDefinition.mk code (.Rectangle ⟨ax, ay, some hole⟩)).to_code =
      .ok (intStr code ++ "R," ++ xs ++ "X" ++ ys ++ "X" ++ hs) ∧
    (ApertureDefinition.mk code (.Rectangle ⟨ax, ay, none⟩)).to_code =
      .ok (intStr code ++ "R," ++ xs ++ "X" ++ ys) ∧
    (ApertureDefinition.mk code (.Obround ⟨ax, ay, some hole⟩)).to_code =
      .ok (intStr code ++ "O," ++ xs ++ "X" ++ ys ++ "X" ++ hs) ∧
    (ApertureDefinition.mk code (.Obround ⟨ax, ay, none⟩)).to_code =
      .ok (intStr code ++ "O," ++ xs ++ "X" ++ ys) ∧
    (ApertureDefinition.mk code
        (.Polygon ⟨dia, v, some rot, some hole⟩)).to_code =
      .ok (intStr code ++ "P," ++ ds ++ "X" ++ String.mk (natChars v) ++
           "X" ++ rs ++ "X" ++ hs) ∧
    (ApertureDefinition.mk code (.Polygon ⟨dia, v, some rot, none⟩)).to_code =
      .ok (intStr code ++ "P," ++ ds ++ "X" ++ String.mk (natChars v) ++
           "X" ++ rs) ∧
    (ApertureDefinition.mk code (.Polygon ⟨dia, v, none, some hole⟩)).to_code =
      .ok (intStr code ++ "P," ++ ds ++ "X" ++ String.mk (natChars v) ++
           "X0X" ++ hs) ∧
    (ApertureDefinition.mk code (.Polygon ⟨dia, v, none, none⟩)).to_code =
      .ok (intStr code ++ "P," ++ ds ++ "X" ++ String.mk (natChars v)) := by
  refine ⟨?_, ?_, ?_, ?_, ?_, ?_, ?_, ?_, ?_, ?_⟩ <;>
    simp [ApertureDefinition.to_code, Aperture.to_code, hdia, hax, hay,
      hrot, hhole, gr_bind_ok, gr_pure, String.append_assoc,
      String.append_empty]

/-- Witness for the amended C3 at concrete apertures. -/
theorem aperture_definition_rendering_witness :
    (ApertureDefinition.mk 10
      (.Circle ⟨.finite 45 1, some (.finite 18 1)⟩)).to_code =
      .ok "10C,4.5X1.8" :=
  (aperture_definition_rendering 10 4 (.finite 45 1) (.finite 15 1)
    (.finite 225 2) (.finite 306 1) (.finite 18 1) "4.5" "1.5" "2.25" "30.6"
    "1.8" rfl rfl rfl rfl rfl).1

/-- Claim C4: a Polygon aperture with absent rotation renders the literal 0
in the rotation slot when a hole diameter follows, and omits the rotation
entirely when no hole diameter is present; in particular code 17, diameter
5.5, 5 vertices, hole 1.8 renders as 17P,5.5X5X0X1.8 and code 15, diameter
4.5, 3 vertices renders as 15P,4.5X3. -/
theorem polygon_rotation_default (code : Int) (v : Nat)
    (dia hole : GerberFloat) (ds hs : String)
    (hdia : formatDecimal dia = .ok ds)
    (hhole : formatDecimal hole = .ok hs) :
    (ApertureDefinition.mk code (.Polygon ⟨dia, v, none, some hole⟩)).to_code =
      .ok (intStr code ++ "P," ++ ds ++ "X" ++ String.mk (natChars v) ++
           "X0X" ++ hs) ∧
    (ApertureDefinition.mk code (.Polygon ⟨dia, v, none, none⟩)).to_code =
      .ok (intStr code ++ "P," ++ ds ++ "X" ++ String.mk (natChars v)) ∧
    (ApertureDefinition.mk 17 (.Polygon ⟨.finite 55 1, 5, none,
      some (.finite 18 1)⟩)).to_code = .ok "17P,5.5X5X0X1.8" ∧
    (ApertureDefinition.mk 15
      (.Polygon ⟨.finite 45 1, 3, none, none⟩)).to_code =
      .ok "15P,4.5X3" := by
  refine ⟨?_, ?_, rfl, rfl⟩ <;>
    simp [ApertureDefinition.to_code, Aperture.to_code, hdia, hhole,
      gr_bind_ok, gr_pure, String.append_assoc, String.append_empty]

/-- Witness for C4 at the concrete polygon of the test suite. -/
theorem polygon_rotation_default_witness :
    (ApertureDefinition.mk 17 (.Polygon ⟨.finite 55 1, 5, none,
      some (.finite 18 1)⟩)).to_code = .ok "17P,5.5X5X0X1.8" :=
  (polygon_rotation_default 17 5 (.finite 55 1) (.finite 18 1) "5.5" "1.8"
    rfl rfl).1

/-- Claim C6: rendering a sequence succeeds exactly when every element
renders successfully, the empty sequence renders as the empty string, and
a successful render equals the elements' individual renderings joined by a
single newline in input order with no trailing separator. -/
theorem vec_to_code_join {α : Type} (f : α → GerberResult String)
    (l : List α) :
    renderList f ([] : List α) = .ok "" ∧
    ((∃ s, renderList f l = .ok s) ↔ ∀ x ∈ l, ∃ s, f x = .ok s) ∧
    (∀ g : α → String, (∀ x ∈ l, f x = .ok (g x)) →
      renderList f l = .ok (String.intercalate "\n" (l.map g))) := by
  refine ⟨rfl, ?_, ?_⟩
  · constructor
    · rintro ⟨s, hs⟩
      apply (renderEach_isOk f l).mp
      cases he : renderEach f l with
      | ok ss => exact ⟨ss, rfl⟩
      | error e =>
        rw [renderList, he, gr_bind_error] at hs
        exact absurd hs (by simp)
    · intro h
      obtain ⟨ss, hss⟩ := (renderEach_isOk f l).mpr h
      exact ⟨String.intercalate "\n" ss,
        by rw [renderList, hss, gr_bind_ok, gr_pure]⟩
  · intro g h
    rw [renderList, renderEach_ok f g l h, gr_bind_ok, gr_pure]

/-- Witness for C6 at the two-comment sequence of the test suite. -/
theorem vec_to_code_join_witness :
    renderList GCode.to_code
      [GCode.Comment "comment 1", GCode.Comment "another one"] =
      .ok "G04 comment 1 *\nG04 another one *" :=
  (vec_to_code_join GCode.to_code
    [GCode.Comment "comment 1", GCode.Comment "another one"]).2.2
    (fun g => match g with
      | GCode.Comment t => "G04 " ++ t ++ " *"
      | _ => "")
    (by
      intro x hx
      rcases List.mem_cons.mp hx with rfl | hx'
      · rfl
      · rcases List.mem_cons.mp hx' with rfl | hx''
        · rfl
        · exact absurd hx'' (List.not_mem_nil x))

/-- Claim C9: every render returns either produced text or a
ConversionError/WriteError value (an all-absent coordinate pair renders as
empty text rather than failing), and in a sequence the first failing
element aborts the whole render with that element's error surfaced. -/
theorem render_error_propagation :
    Coordinates.to_code ⟨none, none⟩ = .ok "" ∧
    (∀ c : Command, (∃ s, c.to_code = .ok s) ∨
      (∃ msg, c.to_code = .error (.ConversionError msg)) ∨
      (∃ msg, c.to_code = .error (.WriteError msg))) ∧
    (∀ (l1 l2 : List Command) (cmd : Command) (e : GerberError),
      (∀ x ∈ l1, ∃ s, Command.to_code x = .ok s) → cmd.to_code = .error e →
      renderList Command.to_code (l1 ++ cmd :: l2) = .error e) := by
  refine ⟨rfl, ?_, ?_⟩
  · intro c
    cases h : c.to_code with
    | ok s => exact Or.inl ⟨s, rfl⟩
    | error err =>
      cases err with
      | ConversionError msg => exact Or.inr (Or.inl ⟨msg, rfl⟩)
      | WriteError msg => exact Or.inr (Or.inr ⟨msg, rfl⟩)
  · intro l1 l2 cmd e h1 hc
    have he := renderEach_error Command.to_code e l1 l2 cmd h1 hc
    rw [renderList, he, gr_bind_error]

/-- Witness for C9: a sequence whose second command carries a non-finite
aperture diameter aborts with that ConversionError. -/
theorem render_error_propagation_witness :
    renderList Command.to_code
      [Command.FunctionCode (.GCode (.Comment "ok")),
       Command.ExtendedCode (.ApertureDefinition ⟨18, .Circle ⟨.nan, none⟩⟩)] =
      .error (.ConversionError "value is not finite") :=
  render_error_propagation.2.2
    [Command.FunctionCode (.GCode (.Comment "ok"))] []
    (Command.ExtendedCode (.ApertureDefinition ⟨18, .Circle ⟨.nan, none⟩⟩))
    (.ConversionError "value is not finite")
    (by
      intro x hx
      rcases List.mem_cons.mp hx with rfl | hx'
      · exact ⟨"G04 ok *", rfl⟩
      · exact absurd hx' (List.not_mem_nil x)) rfl

theorem sgn_abs (mr : Int) :
    (if mr < 0 then (-1 : ℚ) else 1) * (mr.natAbs : ℚ) = (mr : ℚ) := by
  rw [Int.cast_natAbs, Int.cast_abs]
  by_cases h : mr < 0
  · rw [if_pos h, abs_of_neg (by exact_mod_cast h)]
    ring
  · rw [if_neg h, abs_of_nonneg (by exact_mod_cast not_lt.mp h)]
    ring

/-- Claim C7: the decimal formatter produces the shortest exact decimal
text of a magnitude m / 10 ^ e: the output is an optional minus sign, a
nonempty block of digits, and an optional point followed by digits whose
last digit is never zero (so a redundant trailing .0 and trailing zeros
past the point are dropped, and at least one digit is kept before the
point), and reading the digits back yields exactly m / 10 ^ e; in
particular 4.0 renders as 4, 4.5 as 4.5, 30.60 as 30.6 and 0.0 as 0. -/
theorem decimal_format_shortest (m : Int) (e : Nat) :
    (∃ (sign : String) (sgn : ℚ) (ip fp : List Char),
      decimalStr m e =
        sign ++ String.mk ip ++ (if fp = [] then "" else "." ++ String.mk fp) ∧
      ((sign = "" ∧ sgn = 1) ∨ (sign = "-" ∧ sgn = -1)) ∧
      ip ≠ [] ∧ (∀ c ∈ ip, c.isDigit = true) ∧ (∀ c ∈ fp, c.isDigit = true) ∧
      fp.getLast? ≠ some '0' ∧
      sgn * ((charsToNat ip : ℚ) * 10 ^ fp.length + (charsToNat fp : ℚ)) /
          10 ^ fp.length = (m : ℚ) / 10 ^ e) ∧
    decimalStr 40 1 = "4" ∧ decimalStr 45 1 = "4.5" ∧
    decimalStr 3060 2 = "30.6" ∧ decimalStr 0 1 = "0" := by
  refine ⟨?_, rfl, rfl, rfl, rfl⟩
  have hspec := stripZerosAux_spec e m
  have hmodspec := stripZerosAux_mod e m
  rcases hsz : stripZerosAux m e with ⟨mr, er⟩
  rw [hsz] at hspec hmodspec
  obtain ⟨hle, hval⟩ := hspec
  dsimp only at hle hval hmodspec
  cases er with
  | zero =>
    refine ⟨if mr < 0 then "-" else "", if mr < 0 then -1 else 1,
      natChars mr.natAbs, [], ?_, ?_, natChars_ne_nil _, natChars_isDigit _,
      by simp, by simp, ?_⟩
    · simp only [decimalStr, hsz, intStr]
      simp [String.append_empty]
    · by_cases h : mr < 0 <;> simp [h]
    · simp only [List.length_nil, pow_zero, charsToNat, Nat.cast_zero,
        mul_one, add_zero, div_one, charsToNat_natChars]
      rw [sgn_abs]
      rw [Nat.sub_zero] at hval
      rw [hval]
      push_cast
      rw [mul_div_assoc, div_self (by positivity), mul_one]
  | succ k =>
    have hmod : mr % 10 ≠ 0 := hmodspec (by omega)
    have hmr0 : mr ≠ 0 := by
      intro h0
      exact hmod (by rw [h0]; rfl)
    have hna : mr.natAbs ≠ 0 := by simpa [Int.natAbs_eq_zero] using hmr0
    simp only [decimalStr, hsz]
    set ds := natChars mr.natAbs with hds
    have hdsne : ds ≠ [] := natChars_ne_nil _
    have hdslen : 1 ≤ ds.length := List.length_pos.mpr hdsne
    set padded := List.replicate (k + 2 - ds.length) '0' ++ ds with hpad
    have hplen : k + 2 ≤ padded.length := by
      rw [hpad]
      simp only [List.length_append, List.length_replicate]
      omega
    set cut := padded.length - (k + 1) with hcut
    set ip := padded.take cut with hip
    set fp := padded.drop cut with hfp
    have hipfp : ip ++ fp = padded := List.take_append_drop cut padded
    have hfplen : fp.length = k + 1 := by
      rw [hfp, List.length_drop]
      omega
    have hiplen : ip.length = cut := by
      rw [hip, List.length_take]
      omega
    have hipne : ip ≠ [] := by
      intro h0
      rw [h0] at hiplen
      simp only [List.length_nil] at hiplen
      omega
    have hfpne : fp ≠ [] := by
      intro h0
      rw [h0] at hfplen
      simp at hfplen
    have hpdig : ∀ c ∈ padded, c.isDigit = true := by
      intro c hc
      rw [hpad] at hc
      rcases List.mem_append.mp hc with h | h
      · rw [List.eq_of_mem_replicate h]; decide
      · exact natChars_isDigit _ c h
    have hipdig : ∀ c ∈ ip, c.isDigit = true := by
      intro c hc
      have hm : c ∈ ip ++ fp := List.mem_append.mpr (Or.inl hc)
      rw [hipfp] at hm
      exact hpdig c hm
    have hfpdig : ∀ c ∈ fp, c.isDigit = true := by
      intro c hc
      have hm : c ∈ ip ++ fp := List.mem_append.mpr (Or.inr hc)
      rw [hipfp] at hm
      exact hpdig c hm
    have hlast : fp.getLast? = some (digitChar (mr.natAbs % 10)) := by
      have h1 : (ip ++ fp).getLast? = fp.getLast? :=
        List.getLast?_append_of_ne_nil ip hfpne
      rw [hipfp] at h1
      have h2 : padded.getLast? = ds.getLast? := by
        rw [hpad]
        exact List.getLast?_append_of_ne_nil _ hdsne
      rw [← h1, h2, hds, natChars_getLast mr.natAbs hna]
    have hlast0 : fp.getLast? ≠ some '0' := by
      rw [hlast]
      intro hcon
      injection hcon with hc
      have hlt : mr.natAbs % 10 < 10 := Nat.mod_lt _ (by omega)
      have hne0 : mr.natAbs % 10 ≠ 0 := by
        intro h0
        apply hmod
        have hdvd : (10 : Nat) ∣ mr.natAbs := Nat.dvd_of_mod_eq_zero h0
        have hdvd2 : (10 : Int) ∣ mr :=
          Int.natAbs_dvd_natAbs.mp (by simpa using hdvd)
        omega
      exact digit_ne_zero _ hlt hne0 hc
    have hpadval : charsToNat padded = mr.natAbs := by
      rw [hpad, charsToNat_append, charsToNat_replicate_zero, hds,
        charsToNat_natChars]
      simp
    have hsplitval : charsToNat ip * 10 ^ fp.length + charsToNat fp =
        mr.natAbs := by
      rw [← charsToNat_append, hipfp, hpadval]
    refine ⟨if mr < 0 then "-" else "", if mr < 0 then -1 else 1, ip, fp,
      ?_, ?_, hipne, hipdig, hfpdig, hlast0, ?_⟩
    · rw [if_neg hfpne]
      simp [String.append_assoc]
    · by_cases h : mr < 0 <;> simp [h]
    · have hq := congrArg (fun n : Nat => (n : ℚ)) hsplitval
      push_cast at hq
      rw [hq, sgn_abs]
      rw [hval, hfplen]
      have hepow : (10 : ℚ) ^ e = 10 ^ (e - (k + 1)) * 10 ^ (k + 1) := by
        rw [← pow_add]
        congr 1
        omega
      push_cast
      rw [div_eq_div_iff (by positivity) (by positivity), hepow]
      ring

/-- Witness for C7 at the magnitude 30.60 (mantissa 3060, exponent 2). -/
theorem decimal_format_shortest_witness :
    (∃ (sign : String) (sgn : ℚ) (ip fp : List Char),
      decimalStr 3060 2 =
        sign ++ String.mk ip ++ (if fp = [] then "" else "." ++ String.mk fp) ∧
      ((sign = "" ∧ sgn = 1) ∨ (sign = "-" ∧ sgn = -1)) ∧
      ip ≠ [] ∧ (∀ c ∈ ip, c.isDigit = true) ∧ (∀ c ∈ fp, c.isDigit = true) ∧
      fp.getLast? ≠ some '0' ∧
      sgn * ((charsToNat ip : ℚ) * 10 ^ fp.length + (charsToNat fp : ℚ)) /
          10 ^ fp.length = ((3060 : Int) : ℚ) / 10 ^ 2) ∧
    decimalStr 40 1 = "4" ∧ decimalStr 45 1 = "4.5" ∧
    decimalStr 3060 2 = "30.6" ∧ decimalStr 0 1 = "0" :=
  decimal_format_shortest 3060 2

end Gerber
